import Mathlib

/-!
Verification of the streaming multipart upload engine of the `minior` crate.

The definitions below are a shallow embedding of:
* `src/core/upload/upload_object.rs` — `upload_object`, `spawn_upload_future`,
  `UploadObjectAdditionalOptions`, `UploadPartResult`;
* `src/core/upload/util.rs` — `complete_multipart_upload` (order in which the
  collected e-tags are handed to the backend);
* `src/error.rs` — the `Error` enum.

Bytes are modelled as `Nat`, the input stream as the list of the non-empty
chunks successively returned by `stream.read` (the read loop treats a zero
byte read as end of stream).  The pure read loop (lines 145-211 of
`upload_object.rs`) is `read_loop` / `upload_object_dispatch`; the
finalisation loop over the join handles (lines 213-245) is
`finalize_multipart`, parameterised by the outcome of every spawned task and
by the result of the external `abort`/`complete` calls.  The tokio task
scheduler and the semaphore of `spawn_upload_future` are modelled by the
explicit interleaving machine `sched_step` at the bottom.
-/

namespace Minior

/-- The `Error` enum of `src/error.rs`. -/
inductive Error where
  | StdIo (kind : String)
  | SdkError (msg : String)
  | Internal (msg : String)
  | JoinError
  | AcquireError
deriving DecidableEq

/-- `Error::internal` constructor helper from `src/error.rs`. -/
def Error.internal (message : String) : Error := .Internal message

instance {ε α : Type} [DecidableEq ε] [DecidableEq α] : DecidableEq (Except ε α) := fun x y =>
  match x, y with
  | .ok a, .ok b =>
      match decEq a b with
      | isTrue h => isTrue (congrArg Except.ok h)
      | isFalse h => isFalse (fun hc => h (Except.ok.inj hc))
  | .error a, .error b =>
      match decEq a b with
      | isTrue h => isTrue (congrArg Except.error h)
      | isFalse h => isFalse (fun hc => h (Except.error.inj hc))
  | .ok _, .error _ => isFalse (fun hc => Except.noConfusion hc)
  | .error _, .ok _ => isFalse (fun hc => Except.noConfusion hc)

/-- A byte of the input stream. -/
abbrev Byte := Nat

/-- One successful `stream.read`: the bytes read into the reusable buffer. -/
abbrev Chunk := List Byte

/-- The `ETag` struct: an integrity tag together with its part number. -/
structure ETag where
  e_tag : String
  part_number : Nat
deriving DecidableEq

/-- `CompletedPart` as assembled by `complete_multipart_upload` in
`src/core/upload/util.rs`. -/
structure CompletedPart where
  e_tag : String
  part_number : Nat
deriving DecidableEq

/-- The body of `complete_multipart_upload` (`util.rs` lines 119-127): the
collected e-tags are mapped to `CompletedPart`s in the order in which they
arrive; no reordering of any kind is performed. -/
def completed_parts_of (e_tags : List ETag) : List CompletedPart :=
  e_tags.map (fun t => ⟨t.e_tag, t.part_number⟩)

/-- `UploadObjectAdditionalOptions` from `upload_object.rs`. -/
structure UploadObjectAdditionalOptions where
  buffer_size : Option Nat
  data_part_size : Option Nat
  semaphore_permits : Option Nat

/-- `buffer_size.unwrap_or(100_000).max(4_096)` (`upload_object.rs` line 130). -/
def effective_buffer_size (buffer_size : Option Nat) : Nat :=
  max (buffer_size.getD 100000) 4096

/-- `data_part_size.unwrap_or(5_242_880).max(5_242_880)` (line 131). -/
def effective_data_part_size (data_part_size : Option Nat) : Nat :=
  max (data_part_size.getD 5242880) 5242880

/-- `semaphore_permits.unwrap_or(4).max(1)` (line 132). -/
def effective_semaphore_permits (semaphore_permits : Option Nat) : Nat :=
  max (semaphore_permits.getD 4) 1

/-- The mutable state of the read loop of `upload_object` (lines 134-143):
the optional multipart upload id, the bodies already handed to
`spawn_upload_future` (in dispatch order, mirroring `join_handles`), the
part accumulator, and the running byte total.  `sessions_started` counts the
calls to `start_multipart_upload`. -/
structure LoopState where
  upload_id : Option String
  sessions_started : Nat
  parts : List Chunk
  data_part_buffer : Chunk
  total_bytes : Nat

/-- How the read loop of `upload_object` can end: the early single-shot
`return Ok(total_bytes)` after a plain `upload` (lines 153-158), the `break`
into the multipart finalisation (line 160), or the
`Err(Error::internal("upload_id was None on multipart upload"))` branch
inside the loop (line 189). -/
inductive LoopExit where
  | singleShot (body : Chunk) (total : Nat) (sessions_started : Nat)
  | finishing (upload_id : Option String) (parts : List Chunk) (remainder : Chunk)
      (total : Nat) (sessions_started : Nat)
  | errInternalLoop

/-- The read loop of `upload_object` (lines 145-192), one step per
successful `stream.read`.  `T` is the effective `data_part_size`; `sid` the
upload id returned by `start_multipart_upload` when it is called. -/
def read_loop (T : Nat) (sid : String) : List Chunk → LoopState → LoopExit
  | [], st =>
      if st.parts.isEmpty = true ∧ st.data_part_buffer.length < T then
        .singleShot st.data_part_buffer st.total_bytes st.sessions_started
      else
        .finishing st.upload_id st.parts st.data_part_buffer st.total_bytes st.sessions_started
  | chunk :: rest, st =>
      let total := st.total_bytes + chunk.length
      let buf := st.data_part_buffer ++ chunk
      if T ≤ buf.length then
        let started :=
          if st.upload_id.isNone then st.sessions_started + 1 else st.sessions_started
        let uid : Option String := if st.upload_id.isNone then some sid else st.upload_id
        match uid with
        | some _ =>
            read_loop T sid rest
              { upload_id := uid, sessions_started := started,
                parts := st.parts ++ [buf], data_part_buffer := [], total_bytes := total }
        | none => .errInternalLoop
      else
        read_loop T sid rest
          { st with data_part_buffer := buf, total_bytes := total }

/-- What `upload_object` hands to the outside world before the join-handle
drain: either one `upload` (PutObject) call with the whole accumulator, or a
multipart upload whose dispatched part bodies (final remainder included, it
is always pushed at lines 196-211) are listed in dispatch order together
with the value of `total_bytes` after line 198. -/
inductive UploadOutcome where
  | put (body : Chunk) (total : Nat) (sessions_started : Nat)
  | multipart (upload_id : String) (part_bodies : List Chunk) (total : Nat)
      (sessions_started : Nat)

/-- Initial loop state (lines 134-143). -/
def initial_loop_state : LoopState :=
  ⟨none, 0, [], [], 0⟩

/-- `upload_object` up to (and including) the dispatch of the final
remainder part: the read loop followed by lines 194-211.  The `ok_or` on
`upload_id` at line 194 is the second `Error::internal` branch. -/
def upload_object_dispatch (T : Nat) (sid : String) (chunks : List Chunk) :
    Except Error UploadOutcome :=
  match read_loop T sid chunks initial_loop_state with
  | .singleShot body total sessions => .ok (.put body total sessions)
  | .errInternalLoop => .error (Error.internal "upload_id was None on multipart upload")
  | .finishing uidOpt parts remainder total sessions =>
      match uidOpt with
      | none => .error (Error.internal "upload_id was None on multipart upload")
      | some uid =>
          .ok (.multipart uid (parts ++ [remainder]) (total + remainder.length) sessions)

/-- `upload_object` with its options clamped (lines 130-132) feeding the
effective `data_part_size` into the read loop. -/
def upload_object_plan (opts : UploadObjectAdditionalOptions) (sid : String)
    (chunks : List Chunk) : Except Error UploadOutcome :=
  upload_object_dispatch (effective_data_part_size opts.data_part_size) sid chunks

/-- The observable outcome of awaiting one join handle (lines 216-239):
`ok pn r` is `Ok(UploadPartResult { part_number, e_tag_result })`, `taskErr`
is `Ok(Err(_))` from the task body (the semaphore acquire `?`), and
`joinFailed` is `Err(_)` from `JoinHandle::await`. -/
inductive JoinOutcome where
  | ok (part_number : Nat) (e_tag_result : Except Error String)
  | taskErr (err : Error)
  | joinFailed
deriving DecidableEq

/-- Whether a join outcome contributes an e-tag (the `Ok(Ok(..))` path). -/
def join_ok : JoinOutcome → Bool
  | .ok _ (.ok _) => true
  | _ => false

/-- The error that a non-ok join outcome makes `upload_object` return
(after the abort): the part upload error, the task body error, or
`Error::JoinError`. -/
def join_error : JoinOutcome → Option Error
  | .ok _ (.error e) => some e
  | .taskErr e => some e
  | .joinFailed => some Error.JoinError
  | .ok _ (.ok _) => none

/-- The `for join_handle in join_handles` loop of `upload_object`
(lines 215-241): either all handles are drained into the e-tag list, or the
first non-ok handle stops the loop with its error; `awaited` counts how many
handles were actually awaited before the loop ended. -/
def drain_handles : List JoinOutcome → List ETag → Nat → (List ETag × Nat) ⊕ (Error × Nat)
  | [], acc, awaited => .inl (acc, awaited)
  | o :: rest, acc, awaited =>
      match o with
      | .ok pn (.ok tag) => drain_handles rest (acc ++ [⟨tag, pn⟩]) (awaited + 1)
      | .ok _ (.error e) => .inr (e, awaited + 1)
      | .taskErr e => .inr (e, awaited + 1)
      | .joinFailed => .inr (Error.JoinError, awaited + 1)

/-- Observable trace of the finalisation of a multipart upload: the value
returned by `upload_object`, how often `abort_multipart_upload` was called,
the part list handed to `complete_multipart_upload` (if it was called at
all), and how many join handles were awaited. -/
structure FinalizeTrace where
  result : Except Error Nat
  abort_calls : Nat
  complete_called_with : Option (List CompletedPart)
  handles_awaited : Nat
deriving DecidableEq

/-- Lines 213-245 of `upload_object`: drain the join handles; on the first
failure call `abort_multipart_upload` (whose own result is propagated by
`?`, lines 226-227, 232, 237) and return; otherwise call
`complete_multipart_upload` with the e-tags in the order collected and
return `Ok(total_bytes)`. -/
def finalize_multipart (outcomes : List JoinOutcome) (total_bytes : Nat)
    (abort_result : Except Error Unit) (complete_result : Except Error Unit) :
    FinalizeTrace :=
  match drain_handles outcomes [] 0 with
  | .inl (e_tags, n) =>
      match complete_result with
      | .ok _ => ⟨.ok total_bytes, 0, some (completed_parts_of e_tags), n⟩
      | .error ce => ⟨.error ce, 0, some (completed_parts_of e_tags), n⟩
  | .inr (e, n) =>
      match abort_result with
      | .ok _ => ⟨.error e, 1, none, n⟩
      | .error ae => ⟨.error ae, 1, none, n⟩

/-- Part number actually assigned to dispatched task `i`: the shared atomic
counter starts at 1 and `fetch_add` is executed when the task body runs
(`spawn_upload_future`, line 51), so task `i` receives one plus its position
in the order `exec` in which the task bodies reached the counter. -/
def part_number_of (exec : List Nat) (i : Nat) : Nat := exec.indexOf i + 1

/-- Join outcomes of `n` dispatched tasks that all succeed, when the task
bodies reach the atomic counter in the order `exec`: the handles are awaited
in dispatch order `0, 1, ...`, each carrying the part number assigned at
execution time. -/
def join_outcomes_of_exec (n : Nat) (exec : List Nat) (tags : Nat → String) :
    List JoinOutcome :=
  (List.range n).map (fun i => .ok (part_number_of exec i) (.ok (tags i)))

/-- Phase of one spawned part-upload task, following the body of
`spawn_upload_future` (lines 44-67): spawned, past the semaphore acquire,
past the `counter.fetch_add`, inside the `upload_part` network call, done. -/
inductive TaskPhase where
  | started
  | acquired
  | numbered (part_number : Nat)
  | uploading (part_number : Nat)
  | taskDone (part_number : Nat)
deriving DecidableEq

/-- Shared state of the spawned tasks: available semaphore permits, the
atomic part counter, and the phase of every task. -/
structure SchedState where
  permits : Nat
  counter : Nat
  tasks : List TaskPhase
deriving DecidableEq

/-- One scheduling step of one task. -/
inductive SchedStep where
  | acquire (i : Nat)
  | assign (i : Nat)
  | beginUpload (i : Nat)
  | finish (i : Nat)

/-- Interleaving semantics of `spawn_upload_future`.  The acquire step
mirrors `let _ = semaphore.clone().acquire_owned().await...?` (lines 45-49):
the permit is taken (`permits - 1`) and, being bound to the wildcard `_`,
dropped again at once (`+ 1`), so it is no longer held when the task goes on
to `fetch_add` and `upload_part`. -/
def sched_step : SchedStep → SchedState → Option SchedState
  | .acquire i, s =>
      match s.tasks.get? i with
      | some .started =>
          if 1 ≤ s.permits then
            some { s with permits := s.permits - 1 + 1, tasks := s.tasks.set i .acquired }
          else none
      | _ => none
  | .assign i, s =>
      match s.tasks.get? i with
      | some .acquired =>
          some { s with counter := s.counter + 1, tasks := s.tasks.set i (.numbered s.counter) }
      | _ => none
  | .beginUpload i, s =>
      match s.tasks.get? i with
      | some (.numbered n) => some { s with tasks := s.tasks.set i (.uploading n) }
      | _ => none
  | .finish i, s =>
      match s.tasks.get? i with
      | some (.uploading n) => some { s with tasks := s.tasks.set i (.taskDone n) }
      | _ => none

/-- Run a schedule, failing if some step is not enabled. -/
def run_sched : List SchedStep → SchedState → Option SchedState
  | [], s => some s
  | step :: rest, s =>
      match sched_step step s with
      | some s2 => run_sched rest s2
      | none => none

/-- How many tasks are currently inside their `upload_part` network call. -/
def uploading_count (s : SchedState) : Nat :=
  s.tasks.countP (fun p => match p with | .uploading _ => true | _ => false)

/-- Postcondition of `read_loop` used for byte conservation: the dispatched
part bodies followed by the remaining accumulator always concatenate to the
bytes consumed so far, and the loop-internal error branch is unreachable. -/
def conservation_post (st : LoopState) (chunks : List Chunk) : LoopExit → Prop
  | .singleShot body total sessions =>
      st.parts = [] ∧ body = st.data_part_buffer ++ chunks.flatten ∧
      total = st.total_bytes + (chunks.map List.length).sum ∧
      sessions = st.sessions_started
  | .finishing _ parts rem total _ =>
      parts.flatten ++ rem = st.parts.flatten ++ st.data_part_buffer ++ chunks.flatten ∧
      total = st.total_bytes + (chunks.map List.length).sum
  | .errInternalLoop => False

/-- Postcondition of `read_loop` about the multipart session: on the break
path the upload id is set, exactly one session was started, at least one
part was dispatched inside the loop, and the remainder is below threshold. -/
def session_post (T : Nat) (sid : String) : LoopExit → Prop
  | .singleShot body _ _ => body.length < T
  | .finishing uid parts rem _ sessions =>
      uid = some sid ∧ sessions = 1 ∧ parts ≠ [] ∧ rem.length < T
  | .errInternalLoop => False

/-- Postcondition of `read_loop` counting dispatched parts for a stream of
`k` equally sized chunks. -/
def uniform_count_post (T c : Nat) (st : LoopState) (k : Nat) : LoopExit → Prop
  | .singleShot body _ _ =>
      body.length = st.data_part_buffer.length + k * c
  | .finishing _ parts rem _ _ =>
      parts.length = st.parts.length + (st.data_part_buffer.length + k * c) / T ∧
      rem.length = (st.data_part_buffer.length + k * c) % T
  | .errInternalLoop => True

theorem conservation_post_dispatch (T : Nat) (sid : String) (st st2 : LoopState)
    (c : Chunk) (rest : List Chunk)
    (hparts : st2.parts = st.parts ++ [st.data_part_buffer ++ c])
    (hbuf : st2.data_part_buffer = [])
    (htot : st2.total_bytes = st.total_bytes + c.length)
    (H : conservation_post st2 rest (read_loop T sid rest st2)) :
    conservation_post st (c :: rest) (read_loop T sid rest st2) := by
  cases hres : read_loop T sid rest st2 with
  | singleShot body total sessions =>
      rw [hres] at H
      simp only [conservation_post] at H
      rw [hparts] at H
      exact absurd H.1 (by simp)
  | finishing uid2 parts rem total sessions =>
      rw [hres] at H
      simp only [conservation_post] at H ⊢
      obtain ⟨H1, H2⟩ := H
      rw [hparts, hbuf] at H1
      rw [htot] at H2
      constructor
      · rw [H1]; simp [List.flatten_append, List.append_assoc]
      · rw [H2]; simp [Nat.add_assoc]
  | errInternalLoop =>
      rw [hres] at H
      simp only [conservation_post] at H

theorem conservation_post_skip (T : Nat) (sid : String) (st st2 : LoopState)
    (c : Chunk) (rest : List Chunk)
    (hparts : st2.parts = st.parts)
    (hbuf : st2.data_part_buffer = st.data_part_buffer ++ c)
    (htot : st2.total_bytes = st.total_bytes + c.length)
    (hses : st2.sessions_started = st.sessions_started)
    (H : conservation_post st2 rest (read_loop T sid rest st2)) :
    conservation_post st (c :: rest) (read_loop T sid rest st2) := by
  cases hres : read_loop T sid rest st2 with
  | singleShot body total sessions =>
      rw [hres] at H
      simp only [conservation_post] at H ⊢
      obtain ⟨H1, H2, H3, H4⟩ := H
      rw [hparts] at H1
      rw [hbuf] at H2
      rw [htot] at H3
      rw [hses] at H4
      refine ⟨H1, ?_, ?_, H4⟩
      · rw [H2]; simp [List.append_assoc]
      · rw [H3]; simp [Nat.add_assoc]
  | finishing uid2 parts rem total sessions =>
      rw [hres] at H
      simp only [conservation_post] at H ⊢
      obtain ⟨H1, H2⟩ := H
      rw [hparts, hbuf] at H1
      rw [htot] at H2
      constructor
      · rw [H1]; simp [List.append_assoc]
      · rw [H2]; simp [Nat.add_assoc]
  | errInternalLoop =>
      rw [hres] at H
      simp only [conservation_post] at H

/-- Invariant of the read loop: dispatched part bodies followed by the remaining
accumulator concatenate to the bytes consumed, the running total counts every
byte exactly once, and the in-loop internal-error branch is never taken. -/
theorem read_loop_conservation (T : Nat) (sid : String) :
    ∀ (chunks : List Chunk) (st : LoopState),
      conservation_post st chunks (read_loop T sid chunks st) := by
  intro chunks
  induction chunks with
  | nil =>
      intro st
      simp only [read_loop]
      split
      · rename_i h
        refine ⟨List.isEmpty_iff.mp h.1, by simp, by simp, rfl⟩
      · exact ⟨by simp, by simp⟩
  | cons c rest ih =>
      intro st
      simp only [read_loop]
      split
      · split
        · exact conservation_post_dispatch T sid st _ c rest rfl rfl rfl (ih _)
        · rename_i hbig huid
          cases hO : st.upload_id with
          | none => simp [hO] at huid
          | some u => simp [hO] at huid
      · exact conservation_post_skip T sid st _ c rest rfl rfl rfl rfl (ih _)


theorem session_post_carry (T : Nat) (sid : String) (st2 : LoopState) (rest : List Chunk)
    (hT : 0 < T)
    (hbuf : st2.data_part_buffer.length < T)
    (hnone : st2.upload_id = none → st2.parts = [] ∧ st2.sessions_started = 0)
    (hsid : st2.upload_id = some sid → st2.sessions_started = 1)
    (hor : st2.upload_id = none ∨ st2.upload_id = some sid) :
    session_post T sid (read_loop T sid rest st2) := by
  induction rest generalizing st2 with
  | nil =>
      simp only [read_loop]
      split
      · rename_i h
        simp only [session_post]
        exact h.2
      · rename_i h
        simp only [session_post]
        have hne : st2.parts ≠ [] := by
          intro hp
          exact h ⟨by simp [hp], hbuf⟩
        have huid : st2.upload_id = some sid := by
          rcases hor with hO | hO
          · exact absurd (hnone hO).1 hne
          · exact hO
        exact ⟨huid, hsid huid, hne, hbuf⟩
  | cons c rest ih =>
      rcases hor with hO | hO
      · obtain ⟨hp0, hs0⟩ := hnone hO
        simp only [read_loop, hO, Option.isNone_none, if_true]
        by_cases hbig : T ≤ (st2.data_part_buffer ++ c).length
        · rw [if_pos hbig]
          exact ih _ (by simpa using hT) (by simp) (by simp [hs0]) (by simp)
        · rw [if_neg hbig]
          exact ih _ (by simpa using Nat.lt_of_not_le hbig) (by simp [hO, hp0, hs0])
            (by simp [hO]) (by simp [hO])
      · have hs1 := hsid hO
        simp only [read_loop, hO, Option.isNone_some, Bool.false_eq_true, if_false]
        by_cases hbig : T ≤ (st2.data_part_buffer ++ c).length
        · rw [if_pos hbig]
          exact ih _ (by simpa using hT) (by simp) (by simp [hs1]) (by simp)
        · rw [if_neg hbig]
          exact ih _ (by simpa using Nat.lt_of_not_le hbig) (by simp [hO])
            (by simp [hO, hs1]) (by simp [hO])

theorem read_loop_session (T : Nat) (sid : String) (hT : 0 < T) (chunks : List Chunk) :
    session_post T sid (read_loop T sid chunks initial_loop_state) :=
  session_post_carry T sid initial_loop_state chunks hT (by simpa using hT)
    (fun _ => ⟨rfl, rfl⟩) (by simp [initial_loop_state]) (Or.inl rfl)


theorem uniform_count_post_dispatch (T c : Nat) (sid : String) (st st2 : LoopState)
    (rest : List Chunk) (hT : 0 < T)
    (hlenp : st2.parts.length = st.parts.length + 1)
    (hpne : st2.parts ≠ [])
    (hbuf2 : st2.data_part_buffer = [])
    (hbc : st.data_part_buffer.length + c = T)
    (H : uniform_count_post T c st2 rest.length (read_loop T sid rest st2)) :
    uniform_count_post T c st (rest.length + 1) (read_loop T sid rest st2) := by
  have Hc := read_loop_conservation T sid rest st2
  cases hres : read_loop T sid rest st2 with
  | singleShot body total sessions =>
      rw [hres] at Hc
      simp only [conservation_post] at Hc
      exact absurd Hc.1 hpne
  | finishing uid parts rem total sessions =>
      rw [hres] at H
      simp only [uniform_count_post] at H ⊢
      obtain ⟨H1, H2⟩ := H
      rw [hlenp, hbuf2] at H1
      rw [hbuf2] at H2
      simp only [List.length_nil, Nat.zero_add] at H1 H2
      have harg : st.data_part_buffer.length + (rest.length + 1) * c = T + rest.length * c := by
        rw [Nat.succ_mul]
        omega
      constructor
      · rw [H1, harg, Nat.add_div_left _ hT]
        omega
      · rw [H2, harg, Nat.add_mod_left]
  | errInternalLoop =>
      simp only [uniform_count_post]

theorem uniform_count_post_skip (T c : Nat) (sid : String) (st st2 : LoopState)
    (rest : List Chunk)
    (hlenp : st2.parts.length = st.parts.length)
    (hbuf2 : st2.data_part_buffer.length = st.data_part_buffer.length + c)
    (H : uniform_count_post T c st2 rest.length (read_loop T sid rest st2)) :
    uniform_count_post T c st (rest.length + 1) (read_loop T sid rest st2) := by
  have harg : st.data_part_buffer.length + c + rest.length * c =
      st.data_part_buffer.length + (rest.length + 1) * c := by
    ring
  cases hres : read_loop T sid rest st2 with
  | singleShot body total sessions =>
      rw [hres] at H
      simp only [uniform_count_post] at H ⊢
      rw [H, hbuf2, harg]
  | finishing uid parts rem total sessions =>
      rw [hres] at H
      simp only [uniform_count_post] at H ⊢
      obtain ⟨H1, H2⟩ := H
      rw [hlenp, hbuf2, harg] at H1
      rw [hbuf2, harg] at H2
      exact ⟨H1, H2⟩
  | errInternalLoop =>
      simp only [uniform_count_post]

theorem read_loop_uniform_count (T c : Nat) (sid : String) (hdvd : c ∣ T) :
    ∀ (chunks : List Chunk) (st : LoopState),
      (∀ ch ∈ chunks, ch.length = c) →
      st.data_part_buffer.length < T →
      st.data_part_buffer.length % c = 0 →
      uniform_count_post T c st chunks.length (read_loop T sid chunks st) := by
  intro chunks
  induction chunks with
  | nil =>
      intro st hlen hbuf hmod
      simp only [read_loop, List.length_nil]
      split
      · simp only [uniform_count_post]
        simp
      · simp only [uniform_count_post]
        constructor
        · simp [Nat.div_eq_of_lt hbuf]
        · simp [Nat.mod_eq_of_lt hbuf]
  | cons ch rest ih =>
      intro st hlen hbuf hmod
      have hch : ch.length = c := hlen ch (by simp)
      have hT : 0 < T := Nat.lt_of_le_of_lt (Nat.zero_le _) hbuf
      have hbc : st.data_part_buffer.length + c ≤ T := by
        obtain ⟨m, hm⟩ := hdvd
        obtain ⟨q, hq⟩ := Nat.dvd_of_mod_eq_zero hmod
        have hqm : q < m := by
          have hx := hbuf
          rw [hq, hm] at hx
          exact Nat.lt_of_mul_lt_mul_left hx
        have hmul : c * (q + 1) ≤ c * m := Nat.mul_le_mul_left c hqm
        rw [hq, hm]
        calc c * q + c = c * (q + 1) := by ring
        _ ≤ c * m := hmul
      simp only [read_loop, List.length_cons]
      split
      · rename_i hbig
        have hlapp : (st.data_part_buffer ++ ch).length =
            st.data_part_buffer.length + c := by simp [hch]
        have heq : st.data_part_buffer.length + c = T := by
          rw [hlapp] at hbig
          omega
        split
        · apply uniform_count_post_dispatch T c sid st _ rest hT (by simp) (by simp) rfl heq
          exact ih _ (fun x hx => hlen x (by simp [hx])) (by simpa using hT) (by simp)
        · simp only [uniform_count_post]
      · rename_i hbig
        apply uniform_count_post_skip T c sid st _ rest (by simp) (by simp [hch])
        apply ih _ (fun x hx => hlen x (by simp [hx]))
        · exact Nat.not_le.mp hbig
        · simp [List.length_append, hch, Nat.add_mod, hmod]


theorem read_loop_below_threshold (T : Nat) (sid : String) :
    ∀ (chunks : List Chunk) (st : LoopState),
      st.parts = [] →
      st.data_part_buffer.length + (chunks.map List.length).sum < T →
      read_loop T sid chunks st =
        .singleShot (st.data_part_buffer ++ chunks.flatten)
          (st.total_bytes + (chunks.map List.length).sum) st.sessions_started := by
  intro chunks
  induction chunks with
  | nil =>
      intro st hp hlt
      simp only [read_loop]
      rw [if_pos ⟨by simp [hp], by simpa using hlt⟩]
      simp
  | cons c rest ih =>
      intro st hp hlt
      simp only [List.map_cons, List.sum_cons] at hlt
      simp only [read_loop]
      have hsmall : ¬ T ≤ (st.data_part_buffer ++ c).length := by
        simp only [List.length_append]
        omega
      rw [if_neg hsmall]
      rw [ih { st with data_part_buffer := st.data_part_buffer ++ c, total_bytes := st.total_bytes + c.length } hp (by simp only [List.length_append]; omega)]
      simp [List.append_assoc, Nat.add_assoc]

/-- C7 (confirmed): for every input stream whose total size is smaller than the
effective `data_part_size` (the empty stream included), `upload_object` makes
exactly one PutObject call carrying the whole accumulated content, starts no
multipart session, dispatches no part, and returns the stream byte count. -/
theorem upload_object_single_shot_put (opts : UploadObjectAdditionalOptions) (sid : String)
    (chunks : List Chunk)
    (h : (chunks.map List.length).sum < effective_data_part_size opts.data_part_size) :
    upload_object_plan opts sid chunks =
      .ok (.put chunks.flatten ((chunks.map List.length).sum) 0) := by
  unfold upload_object_plan upload_object_dispatch
  rw [read_loop_below_threshold _ sid chunks initial_loop_state rfl
    (by simpa [initial_loop_state] using h)]
  simp [initial_loop_state]



theorem effective_data_part_size_pos (o : Option Nat) : 0 < effective_data_part_size o :=
  Nat.lt_of_lt_of_le (by decide : 0 < 5242880) (le_max_right _ _)

/-- C9 (confirmed): `upload_object` never returns the internal
`upload_id was None on multipart upload` error: the loop only breaks with at
least one dispatched part, at which point `upload_id` is necessarily `Some`,
so both internal-error branches are unreachable and the pure dispatch phase
always yields an outcome. -/
theorem upload_id_none_branch_unreachable (opts : UploadObjectAdditionalOptions)
    (sid : String) (chunks : List Chunk) :
    ∃ out, upload_object_plan opts sid chunks = Except.ok out := by
  unfold upload_object_plan upload_object_dispatch
  have Hs := read_loop_session (effective_data_part_size opts.data_part_size) sid
    (effective_data_part_size_pos opts.data_part_size) chunks
  cases hres : read_loop (effective_data_part_size opts.data_part_size) sid chunks
      initial_loop_state with
  | singleShot body total sessions => exact ⟨_, rfl⟩
  | finishing uid parts rem total sessions =>
      rw [hres] at Hs
      simp only [session_post] at Hs
      rw [Hs.1]
      exact ⟨_, rfl⟩
  | errInternalLoop =>
      rw [hres] at Hs
      simp only [session_post] at Hs

/-- C10 (confirmed): the byte vectors handed off by `upload_object` — the
single PutObject body on the single-shot path, or the part bodies in dispatch
order followed by the final remainder — concatenate to exactly the bytes read
from the stream, in order, with no byte duplicated or dropped. -/
theorem upload_object_bytes_conservation (opts : UploadObjectAdditionalOptions)
    (sid : String) (chunks : List Chunk) :
    match upload_object_plan opts sid chunks with
    | .ok (.put body _ _) => body = chunks.flatten
    | .ok (.multipart _ bodies _ _) => bodies.flatten = chunks.flatten
    | .error _ => False := by
  unfold upload_object_plan upload_object_dispatch
  have Hc := read_loop_conservation (effective_data_part_size opts.data_part_size) sid chunks
    initial_loop_state
  have Hs := read_loop_session (effective_data_part_size opts.data_part_size) sid
    (effective_data_part_size_pos opts.data_part_size) chunks
  cases hres : read_loop (effective_data_part_size opts.data_part_size) sid chunks
      initial_loop_state with
  | singleShot body total sessions =>
      rw [hres] at Hc
      simp only [conservation_post] at Hc
      simpa [initial_loop_state] using Hc.2.1
  | finishing uid parts rem total sessions =>
      rw [hres] at Hc
      rw [hres] at Hs
      simp only [conservation_post] at Hc
      simp only [session_post] at Hs
      rw [Hs.1]
      have H1 := Hc.1
      simp only [initial_loop_state] at H1
      simp only [List.flatten_nil, List.nil_append] at H1
      simp [List.flatten_append, H1]
  | errInternalLoop =>
      rw [hres] at Hc
      simp only [conservation_post] at Hc

theorem sum_map_length_uniform (c : Nat) :
    ∀ (chunks : List Chunk), (∀ ch ∈ chunks, ch.length = c) →
      (chunks.map List.length).sum = chunks.length * c := by
  intro chunks
  induction chunks with
  | nil => intro _; simp
  | cons ch rest ih =>
      intro hlen
      simp only [List.map_cons, List.sum_cons, List.length_cons, hlen ch (by simp)]
      rw [ih (fun x hx => hlen x (by simp [hx]))]
      ring

/-- C6 (corrected): for a stream of equal-sized chunks whose size divides the
threshold `T`, with total size `S ≥ T`, exactly one multipart session is
started and the number of `upload_part` calls is `S / T + 1` — the final
remainder (possibly empty) is always dispatched as one extra part — rather
than `⌈S / T⌉` as claimed. -/
theorem upload_part_call_count_uniform (T c : Nat) (sid : String) (chunks : List Chunk)
    (hdvd : c ∣ T) (hT : 0 < T)
    (hlen : ∀ ch ∈ chunks, ch.length = c)
    (hS : T ≤ (chunks.map List.length).sum) :
    ∃ bodies total,
      upload_object_dispatch T sid chunks = .ok (.multipart sid bodies total 1) ∧
      bodies.length = (chunks.map List.length).sum / T + 1 := by
  have hsum := sum_map_length_uniform c chunks hlen
  have Hs := read_loop_session T sid hT chunks
  have Hu := read_loop_uniform_count T c sid hdvd chunks initial_loop_state hlen
    (by simpa [initial_loop_state] using hT) (by simp [initial_loop_state])
  unfold upload_object_dispatch
  cases hres : read_loop T sid chunks initial_loop_state with
  | singleShot body total sessions =>
      rw [hres] at Hs Hu
      simp only [session_post] at Hs
      simp only [uniform_count_post, initial_loop_state] at Hu
      simp only [List.length_nil, Nat.zero_add] at Hu
      rw [Hu, ← hsum] at Hs
      exact absurd Hs (Nat.not_lt.mpr hS)
  | finishing uid parts rem total sessions =>
      rw [hres] at Hs Hu
      simp only [session_post] at Hs
      simp only [uniform_count_post, initial_loop_state] at Hu
      simp only [List.length_nil, Nat.zero_add] at Hu
      obtain ⟨huid, hses, _, _⟩ := Hs
      rw [huid, hses]
      refine ⟨parts ++ [rem], total + rem.length, rfl, ?_⟩
      simp only [List.length_append, List.length_cons, List.length_nil]
      rw [Hu.1, hsum]
  | errInternalLoop =>
      rw [hres] at Hs
      simp only [session_post] at Hs


theorem upload_object_dispatch_one_big_read (T : Nat) (sid : String) (c1 : Chunk)
    (h1 : T ≤ c1.length) :
    upload_object_dispatch T sid [c1] = .ok (.multipart sid [c1, []] c1.length 1) := by
  simp [upload_object_dispatch, read_loop, initial_loop_state, h1]

theorem upload_object_dispatch_big_then_small (T : Nat) (sid : String) (c1 c2 : Chunk)
    (h1 : T ≤ c1.length) (h2 : c2.length < T) :
    upload_object_dispatch T sid [c1, c2] =
      .ok (.multipart sid [c1, c2] (c1.length + c2.length + c2.length) 1) := by
  simp [upload_object_dispatch, read_loop, initial_loop_state, h1, Nat.not_le.mpr h2]


/-- C3 (code bug): a stream of 5242885 bytes (one 5242880-byte read and one
5-byte read) uploaded through the multipart path returns 5242890, not the
5242885 bytes actually read: line 198 of `upload_object.rs` adds the final
remainder length to `total_bytes` a second time. -/
theorem upload_object_total_overcount_eval :
    upload_object_plan ⟨some 6000000, none, none⟩ "uid-1"
        [List.replicate 5242880 7, [1, 2, 3, 4, 5]] =
      .ok (.multipart "uid-1" [List.replicate 5242880 7, [1, 2, 3, 4, 5]]
        (5242880 + [(1 : Byte), 2, 3, 4, 5].length + [(1 : Byte), 2, 3, 4, 5].length) 1) ∧
    5242880 + [(1 : Byte), 2, 3, 4, 5].length + [(1 : Byte), 2, 3, 4, 5].length = 5242890 ∧
    (List.replicate 5242880 (7 : Byte)).length + [(1 : Byte), 2, 3, 4, 5].length = 5242885 ∧
    (5242890 : Nat) ≠ 5242885 := by
  refine ⟨?_, by decide, ?_, by decide⟩
  · have h := upload_object_dispatch_big_then_small 5242880 "uid-1"
      (List.replicate 5242880 7) [1, 2, 3, 4, 5] (by rw [List.length_replicate]) (by decide)
    rw [List.length_replicate] at h
    dsimp only [upload_object_plan]
    have hT : effective_data_part_size none = 5242880 := by decide
    rw [hT]
    exact h
  · rw [List.length_replicate]
    decide

/-- C6 (counterexample): a stream of exactly `data_part_size` = 5242880 bytes
produces 2 `upload_part` calls (the second with an empty body), while the
claimed formula `⌈stream_size / part_size_threshold⌉` gives 1. -/
theorem part_count_ceiling_counterexample :
    upload_object_plan ⟨some 6000000, none, none⟩ "uid-2" [List.replicate 5242880 7] =
      .ok (.multipart "uid-2" [List.replicate 5242880 7, []] 5242880 1) ∧
    (5242880 + (5242880 - 1)) / 5242880 = 1 ∧
    ([List.replicate 5242880 (7 : Byte), []] : List Chunk).length = 2 ∧
    (2 : Nat) ≠ 1 := by
  refine ⟨?_, by decide, ?_, by decide⟩
  · have h := upload_object_dispatch_one_big_read 5242880 "uid-2"
      (List.replicate 5242880 7) (by rw [List.length_replicate])
    rw [List.length_replicate] at h
    dsimp only [upload_object_plan]
    have hT : effective_data_part_size none = 5242880 := by decide
    rw [hT]
    exact h
  · rw [List.length_cons, List.length_cons, List.length_nil]


theorem drain_handles_all_ok (f : Nat → Nat) (tags : Nat → String) :
    ∀ (l : List Nat) (acc : List ETag) (k : Nat),
      drain_handles (l.map (fun i => .ok (f i) (.ok (tags i)))) acc k =
        .inl (acc ++ l.map (fun i => ⟨tags i, f i⟩), k + l.length) := by
  intro l
  induction l with
  | nil => intro acc k; simp [drain_handles]
  | cons i rest ih =>
      intro acc k
      simp only [List.map_cons, drain_handles]
      rw [ih]
      simp [List.append_assoc]
      omega

theorem map_part_number_completed (tags : Nat → String) (f : Nat → Nat) (l : List Nat) :
    (completed_parts_of (l.map (fun i => ⟨tags i, f i⟩))).map CompletedPart.part_number =
      l.map f := by
  simp [completed_parts_of, List.map_map]

theorem indexOf_map_range_perm (n : Nat) (exec : List Nat)
    (hperm : exec.Perm (List.range n)) :
    ((List.range n).map (fun i => exec.indexOf i)).Perm (List.range n) := by
  have hlen : exec.length = n := by simpa using hperm.length_eq
  have hmem : ∀ i, i ∈ List.range n → i ∈ exec := fun i hi => hperm.mem_iff.mpr hi
  apply List.Subperm.perm_of_length_le
  · apply List.subperm_of_subset
    · apply (List.nodup_range n).map_on
      intro x hx y hy hxy
      exact (List.indexOf_inj (hmem x hx) (hmem y hy)).mp hxy
    · intro x hx
      simp only [List.mem_map] at hx
      obtain ⟨i, hi, rfl⟩ := hx
      apply List.mem_range.mpr
      rw [← hlen]
      exact List.indexOf_lt_length.mpr (hmem i hi)
  · simp

/-- C1 (corrected): for every successful multipart upload whose task bodies
reach the shared counter in order `exec`, the list handed to
`complete_multipart_upload` is in task dispatch order — no sort is performed
anywhere — and carries each part number of `1..n` exactly once (a permutation
of `1..n`, sorted ascending only when execution order equals dispatch
order). -/
theorem complete_part_numbers_contiguous_not_sorted (n : Nat) (exec : List Nat)
    (tags : Nat → String) (total : Nat) (hperm : exec.Perm (List.range n)) :
    ∃ cps,
      (finalize_multipart (join_outcomes_of_exec n exec tags) total
          (.ok ()) (.ok ())).complete_called_with = some cps ∧
      cps = (List.range n).map (fun i => (⟨tags i, exec.indexOf i + 1⟩ : CompletedPart)) ∧
      (cps.map CompletedPart.part_number).Perm (List.range' 1 n) := by
  unfold finalize_multipart join_outcomes_of_exec
  rw [drain_handles_all_ok (part_number_of exec) tags (List.range n) [] 0]
  refine ⟨_, rfl, ?_, ?_⟩
  · simp [completed_parts_of, List.map_map, part_number_of]
  · rw [List.nil_append, map_part_number_completed]
    have hsplit : (List.range n).map (part_number_of exec) =
        ((List.range n).map (fun i => exec.indexOf i)).map (fun x => x + 1) := by
      rw [List.map_map]
      rfl
    rw [hsplit]
    have h1 : List.range' 1 n = (List.range n).map (fun x => x + 1) := by
      rw [List.range'_eq_map_range]
      exact List.map_congr_left (fun x _ => Nat.add_comm 1 x)
    rw [h1]
    exact (indexOf_map_range_perm n exec hperm).map _


theorem drain_handles_first_failure (e : Error) :
    ∀ (pre : List JoinOutcome) (bad : JoinOutcome) (post : List JoinOutcome)
      (acc : List ETag) (k : Nat),
      (∀ o ∈ pre, join_ok o = true) → join_error bad = some e →
      drain_handles (pre ++ bad :: post) acc k = .inr (e, k + pre.length + 1) := by
  intro pre
  induction pre with
  | nil =>
      intro bad post acc k _ he
      cases bad with
      | ok pn r =>
          cases r with
          | ok tag => simp [join_error] at he
          | error e2 =>
              simp only [join_error, Option.some.injEq] at he
              subst he
              simp [drain_handles]
      | taskErr e2 =>
          simp only [join_error, Option.some.injEq] at he
          subst he
          simp [drain_handles]
      | joinFailed =>
          simp only [join_error, Option.some.injEq] at he
          subst he
          simp [drain_handles]
  | cons o rest ih =>
      intro bad post acc k hpre he
      have ho := hpre o (by simp)
      cases o with
      | ok pn r =>
          cases r with
          | ok tag =>
              simp only [List.cons_append, drain_handles, List.append_eq]
              rw [ih bad post _ _ (fun x hx => hpre x (by simp [hx])) he]
              have harith : k + 1 + rest.length + 1 =
                  k + (JoinOutcome.ok pn (Except.ok tag) :: rest).length + 1 := by
                simp only [List.length_cons]
                omega
              rw [harith]
          | error e2 => simp [join_ok] at ho
      | taskErr e2 => simp [join_ok] at ho
      | joinFailed => simp [join_ok] at ho

/-- C5 (corrected): when the first non-ok join handle follows `pre` successful
ones, `abort_multipart_upload` is called exactly once,
`complete_multipart_upload` is never called, the error returned (when Abort
succeeds) is that first failure, and only `pre.length + 1` handles are
awaited: the remaining dispatched tasks are dropped, not awaited. -/
theorem finalize_first_failure_behavior (pre post : List JoinOutcome)
    (bad : JoinOutcome) (total : Nat) (e : Error) (cr : Except Error Unit)
    (hpre : ∀ o ∈ pre, join_ok o = true) (he : join_error bad = some e) :
    (finalize_multipart (pre ++ bad :: post) total (.ok ()) cr).abort_calls = 1 ∧
    (finalize_multipart (pre ++ bad :: post) total (.ok ()) cr).complete_called_with = none ∧
    (finalize_multipart (pre ++ bad :: post) total (.ok ()) cr).result = .error e ∧
    (finalize_multipart (pre ++ bad :: post) total (.ok ()) cr).handles_awaited =
      pre.length + 1 := by
  unfold finalize_multipart
  rw [drain_handles_first_failure e pre bad post [] 0 hpre he]
  refine ⟨rfl, rfl, rfl, ?_⟩
  simp

/-- C4 (corrected): when a part upload fails, the original error is returned
only if `abort_multipart_upload` succeeds; if Abort itself fails, its error is
propagated by the `?` operator and replaces the original failure. -/
theorem finalize_abort_error_propagation (outcomes : List JoinOutcome) (total : Nat)
    (e : Error) (n : Nat) (ae : Error) (cr : Except Error Unit)
    (h : drain_handles outcomes [] 0 = .inr (e, n)) :
    (finalize_multipart outcomes total (.ok ()) cr).result = .error e ∧
    (finalize_multipart outcomes total (.error ae) cr).result = .error ae := by
  unfold finalize_multipart
  rw [h]
  exact ⟨rfl, rfl⟩


/-- C1 (counterexample): with two parts whose task bodies executed in reverse
dispatch order, `complete_multipart_upload` receives the part numbers as
`[2, 1]` — not sorted ascending and not the contiguous ascending `[1, 2]` the
claim requires; no sorting happens before Complete. -/
theorem complete_receives_unsorted_part_numbers :
    ((finalize_multipart (join_outcomes_of_exec 2 [1, 0] (fun i => toString i)) 7
        (.ok ()) (.ok ())).complete_called_with.getD []).map CompletedPart.part_number =
      [2, 1] ∧
    ¬ List.Pairwise (fun a b => a ≤ b) [2, 1] ∧
    ([2, 1] : List Nat) ≠ List.range' 1 2 := by decide

theorem complete_part_numbers_contiguous_not_sorted_witness :
    List.Perm [1, 0] (List.range 2) ∧
    ∃ cps,
      (finalize_multipart (join_outcomes_of_exec 2 [1, 0] (fun i => toString i)) 3
          (.ok ()) (.ok ())).complete_called_with = some cps ∧
      cps = (List.range 2).map
        (fun i => (⟨toString i, [1, 0].indexOf i + 1⟩ : CompletedPart)) ∧
      (cps.map CompletedPart.part_number).Perm (List.range' 1 2) :=
  ⟨by decide,
    complete_part_numbers_contiguous_not_sorted 2 [1, 0] (fun i => toString i) 3 (by decide)⟩

/-- C2 (code bug): with `semaphore_permits = 2` and five spawned part-upload
tasks, the schedule in which tasks 0, 1 and 2 each pass the semaphore and
enter `upload_part` before any finishes is accepted by the task semantics of
`spawn_upload_future`, reaching a state with 3 tasks inside their network
call while the semaphore still holds its 2 permits: the permit bound to `_`
is dropped immediately and never limits concurrency. -/
theorem semaphore_concurrency_violated :
    effective_semaphore_permits (some 2) = 2 ∧
    (Option.map uploading_count (run_sched
        [SchedStep.acquire 0, .assign 0, .beginUpload 0,
         .acquire 1, .assign 1, .beginUpload 1,
         .acquire 2, .assign 2, .beginUpload 2]
        ⟨2, 1, List.replicate 5 TaskPhase.started⟩) = some 3) ∧
    (Option.map SchedState.permits (run_sched
        [SchedStep.acquire 0, .assign 0, .beginUpload 0,
         .acquire 1, .assign 1, .beginUpload 1,
         .acquire 2, .assign 2, .beginUpload 2]
        ⟨2, 1, List.replicate 5 TaskPhase.started⟩) = some 2) ∧
    2 < 3 := by decide

/-- C4 (counterexample): a part upload fails with `SdkError "part 1 failed"`
and the subsequent Abort fails with `SdkError "abort failed"`; the caller
receives the Abort failure, not the original part failure. -/
theorem abort_failure_masks_part_error :
    (finalize_multipart [JoinOutcome.ok 1 (Except.error (Error.SdkError "part 1 failed"))] 0
        (Except.error (Error.SdkError "abort failed")) (Except.ok ())).result =
      Except.error (Error.SdkError "abort failed") ∧
    Except.error (Error.SdkError "abort failed") ≠
      (Except.error (Error.SdkError "part 1 failed") : Except Error Nat) := by decide

theorem finalize_abort_error_propagation_witness :
    drain_handles [JoinOutcome.ok 1 (Except.error (Error.SdkError "part upload failed"))] [] 0 =
      .inr (Error.SdkError "part upload failed", 1) ∧
    (finalize_multipart [JoinOutcome.ok 1 (Except.error (Error.SdkError "part upload failed"))]
        0 (.ok ()) (.ok ())).result = .error (Error.SdkError "part upload failed") ∧
    (finalize_multipart [JoinOutcome.ok 1 (Except.error (Error.SdkError "part upload failed"))]
        0 (.error Error.AcquireError) (.ok ())).result = .error Error.AcquireError :=
  ⟨by decide,
    finalize_abort_error_propagation
      [JoinOutcome.ok 1 (Except.error (Error.SdkError "part upload failed"))] 0
      (Error.SdkError "part upload failed") 1 Error.AcquireError (.ok ()) (by decide)⟩

/-- C5 (counterexample): two dispatched tasks, the first fails; the finalize
loop awaits only 1 of the 2 handles — the remaining dispatched task is not
awaited before `upload_object` returns, contradicting the claim that every
remaining task is still awaited. -/
theorem remaining_handles_not_awaited :
    (finalize_multipart [JoinOutcome.ok 1 (Except.error (Error.SdkError "part 1 failed")),
        JoinOutcome.ok 2 (Except.ok "t2")] 0 (Except.ok ()) (Except.ok ())).handles_awaited = 1 ∧
    (1 : Nat) ≠ 2 := by decide

theorem finalize_first_failure_behavior_witness :
    (∀ o ∈ [JoinOutcome.ok 1 (Except.ok "t1")], join_ok o = true) ∧
    join_error (JoinOutcome.ok 2 (Except.error (Error.SdkError "part 2 failed"))) =
      some (Error.SdkError "part 2 failed") ∧
    ((finalize_multipart ([JoinOutcome.ok 1 (Except.ok "t1")] ++
        JoinOutcome.ok 2 (Except.error (Error.SdkError "part 2 failed")) ::
          [JoinOutcome.joinFailed]) 9 (.ok ()) (.ok ())).abort_calls = 1 ∧
      (finalize_multipart ([JoinOutcome.ok 1 (Except.ok "t1")] ++
        JoinOutcome.ok 2 (Except.error (Error.SdkError "part 2 failed")) ::
          [JoinOutcome.joinFailed]) 9 (.ok ()) (.ok ())).complete_called_with = none ∧
      (finalize_multipart ([JoinOutcome.ok 1 (Except.ok "t1")] ++
        JoinOutcome.ok 2 (Except.error (Error.SdkError "part 2 failed")) ::
          [JoinOutcome.joinFailed]) 9 (.ok ()) (.ok ())).result =
        .error (Error.SdkError "part 2 failed") ∧
      (finalize_multipart ([JoinOutcome.ok 1 (Except.ok "t1")] ++
        JoinOutcome.ok 2 (Except.error (Error.SdkError "part 2 failed")) ::
          [JoinOutcome.joinFailed]) 9 (.ok ()) (.ok ())).handles_awaited =
        [JoinOutcome.ok 1 (Except.ok "t1")].length + 1) :=
  ⟨by decide, by decide,
    finalize_first_failure_behavior [JoinOutcome.ok 1 (Except.ok "t1")]
      [JoinOutcome.joinFailed]
      (JoinOutcome.ok 2 (Except.error (Error.SdkError "part 2 failed"))) 9
      (Error.SdkError "part 2 failed") (.ok ()) (by decide) (by decide)⟩

theorem upload_part_call_count_uniform_witness :
    ((2 : Nat) ∣ 4 ∧ (0 : Nat) < 4 ∧
      (∀ ch ∈ ([[1, 2], [3, 4], [5, 6]] : List Chunk), ch.length = 2) ∧
      4 ≤ (([[1, 2], [3, 4], [5, 6]] : List Chunk).map List.length).sum) ∧
    ∃ bodies total,
      upload_object_dispatch 4 "sid-c6" [[1, 2], [3, 4], [5, 6]] =
        .ok (.multipart "sid-c6" bodies total 1) ∧
      bodies.length = (([[1, 2], [3, 4], [5, 6]] : List Chunk).map List.length).sum / 4 + 1 :=
  ⟨⟨by decide, by decide, by decide, by decide⟩,
    upload_part_call_count_uniform 4 2 "sid-c6" [[1, 2], [3, 4], [5, 6]] (by decide)
      (by decide) (by decide) (by decide)⟩

theorem upload_object_single_shot_put_witness :
    ((([[10, 20, 30]] : List Chunk).map List.length).sum <
      effective_data_part_size none) ∧
    upload_object_plan ⟨none, none, none⟩ "sid-c7" [[10, 20, 30]] =
      .ok (.put ([[10, 20, 30]] : List Chunk).flatten
        (([[10, 20, 30]] : List Chunk).map List.length).sum 0) :=
  ⟨by decide,
    upload_object_single_shot_put ⟨none, none, none⟩ "sid-c7" [[10, 20, 30]] (by decide)⟩

/-- C8 (confirmed): `buffer_size` defaults to 100000 and values below 4096 are
clamped to exactly 4096; `data_part_size` defaults to 5242880 and values below
5242880 are clamped to exactly 5242880; `semaphore_permits` defaults to 4 and
values below 1 are clamped to exactly 1; every supplied value yields an
effective value at or above its floor — none is ever rejected. -/
theorem upload_object_config_clamping :
    effective_buffer_size none = 100000 ∧
    effective_data_part_size none = 5242880 ∧
    effective_semaphore_permits none = 4 ∧
    (∀ v, v < 4096 → effective_buffer_size (some v) = 4096) ∧
    (∀ v, v < 5242880 → effective_data_part_size (some v) = 5242880) ∧
    (∀ v, v < 1 → effective_semaphore_permits (some v) = 1) ∧
    (∀ v, 4096 ≤ effective_buffer_size v) ∧
    (∀ v, 5242880 ≤ effective_data_part_size v) ∧
    (∀ v, 1 ≤ effective_semaphore_permits v) := by
  refine ⟨rfl, rfl, rfl, fun v hv => ?_, fun v hv => ?_, fun v hv => ?_,
    fun v => ?_, fun v => ?_, fun v => ?_⟩
  · simp [effective_buffer_size, Nat.max_eq_right hv.le]
  · simp [effective_data_part_size, Nat.max_eq_right hv.le]
  · simp [effective_semaphore_permits, Nat.max_eq_right hv.le]
  · exact le_max_right _ _
  · exact le_max_right _ _
  · exact le_max_right _ _

theorem upload_object_config_clamping_witness :
    (100 < 4096 ∧ effective_buffer_size (some 100) = 4096) ∧
    (0 < 5242880 ∧ effective_data_part_size (some 0) = 5242880) ∧
    ((0 : Nat) < 1 ∧ effective_semaphore_permits (some 0) = 1) :=
  ⟨⟨by decide, upload_object_config_clamping.2.2.2.1 100 (by decide)⟩,
   ⟨by decide, upload_object_config_clamping.2.2.2.2.1 0 (by decide)⟩,
   ⟨by decide, upload_object_config_clamping.2.2.2.2.2.1 0 (by decide)⟩⟩

end Minior
